import Mathlib

/-!
# Verification of the strands-short-memories core services

Shallow embedding of the agent-selection, long-term-memory and
portfolio-allocation subsystem of the repository:

* `app/services/utils.py` — portfolio allocation heuristics
  (`create_growth_portfolio`, `create_diversified_portfolio`),
* `app/services/agent_service.py` — agent cache, reset, budget arithmetic,
  memory adapter entry points,
* `app/services/agent_manager.py` — agent cache keyed by user/type/session,
* `app/services/memory_service.py` — mem0-backed memory adapter.

Python floats are embedded as exact rationals (`ℚ`); Python dicts that are
built by insertion and iterated in insertion order are embedded as
association lists; a Python function that can raise is embedded as a
function into `Option`/a result pair, with `none`/`.error` marking the
raised exception.  Opaque external collaborators (the mem0 backend, the
strands `Agent` class, the LLM) are modelled by explicit parameters: the
backend's reply is an input of the embedded function.
-/

namespace StrandsShortMemories

/-! ## Rounding

`round(v, 2)` in Python rounds to two decimal places with round-half-to-even
(banker's rounding) on ties.  Embedded exactly over `ℚ`. -/

/-- Round a rational to the nearest integer, ties to even
(the rounding mode of Python's builtin `round`). -/
def roundHalfEven (y : ℚ) : ℤ :=
  if y - ⌊y⌋ < 1/2 then ⌊y⌋
  else if 1/2 < y - ⌊y⌋ then ⌊y⌋ + 1
  else if ⌊y⌋ % 2 = 0 then ⌊y⌋ else ⌊y⌋ + 1

/-- Python's `round(x, 2)`: round to 2 decimal places, ties to even. -/
def round2 (x : ℚ) : ℚ :=
  (roundHalfEven (x * 100) : ℚ) / 100

theorem roundHalfEven_sub_abs (y : ℚ) : |(roundHalfEven y : ℚ) - y| ≤ 1/2 := by
  unfold roundHalfEven
  have h0 : ((⌊y⌋ : ℤ) : ℚ) ≤ y := Int.floor_le _
  have h1 : y < ((⌊y⌋ : ℤ) : ℚ) + 1 := Int.lt_floor_add_one _
  split
  · rename_i hr
    rw [abs_le]; constructor <;> linarith
  · split
    · rename_i hr hr'
      rw [abs_le]; constructor <;> (push_cast; linarith)
    · rename_i hr hr'
      have heq : y - (⌊y⌋ : ℚ) = 1/2 := le_antisymm (not_lt.mp hr') (not_lt.mp hr)
      split <;> (rw [abs_le]; constructor <;> (push_cast; linarith))

theorem round2_sub_abs (x : ℚ) : |round2 x - x| ≤ 1/200 := by
  unfold round2
  have h := roundHalfEven_sub_abs (x * 100)
  rw [abs_le] at h ⊢
  obtain ⟨hl, hr⟩ := h
  constructor <;>
    · rw [div_sub' _ _ _ (by norm_num : (100:ℚ) ≠ 0)]
      first
        | (rw [le_div_iff₀ (by norm_num : (0:ℚ) < 100)]; linarith)
        | (rw [div_le_iff₀ (by norm_num : (0:ℚ) < 100)]; linarith)

theorem roundHalfEven_nonneg (y : ℚ) (hy : 0 ≤ y) : 0 ≤ roundHalfEven y := by
  unfold roundHalfEven
  have h0 : (0 : ℤ) ≤ ⌊y⌋ := Int.floor_nonneg.mpr hy
  split
  · exact h0
  · split
    · omega
    · split <;> omega

theorem round2_nonneg (x : ℚ) (hx : 0 ≤ x) : 0 ≤ round2 x := by
  unfold round2
  have h0 := roundHalfEven_nonneg (x * 100) (by positivity)
  have h1 : (0:ℚ) ≤ (roundHalfEven (x * 100) : ℚ) := by exact_mod_cast h0
  positivity

/-- Evaluation rule: if `x·100` lies in `[f, f + 1/2)` then `round2 x`
is `f/100`. -/
theorem round2_down (x : ℚ) (f : ℤ) (h1 : (f:ℚ) ≤ x * 100)
    (h2 : x * 100 - f < 1/2) : round2 x = (f:ℚ)/100 := by
  have hfl : ⌊x * 100⌋ = f := Int.floor_eq_iff.mpr ⟨h1, by linarith⟩
  unfold round2 roundHalfEven
  rw [hfl, if_pos (by linarith)]

/-- Evaluation rule: if `x·100` lies in `(f + 1/2, f + 1)` then `round2 x`
is `(f+1)/100`. -/
theorem round2_up (x : ℚ) (f : ℤ) (h1 : (f:ℚ) ≤ x * 100)
    (h2 : x * 100 < (f:ℚ) + 1) (h3 : 1/2 < x * 100 - f) :
    round2 x = ((f:ℚ) + 1)/100 := by
  have hfl : ⌊x * 100⌋ = f := Int.floor_eq_iff.mpr ⟨h1, h2⟩
  unfold round2 roundHalfEven
  rw [hfl, if_neg (by linarith), if_pos (by linarith)]
  push_cast
  ring

example : round2 (100/3) = 3333/100 := by norm_num [round2, roundHalfEven]
example : round2 (100/31) = 323/100 := by norm_num [round2, roundHalfEven]
example : round2 (25/8) = 312/100 := by norm_num [round2, roundHalfEven]

/-! ## Allocation engine (`app/services/utils.py`)

A metrics table (`stock_data["summary_metrics"]`) maps each ticker to its
annualised return and volatility (both percentages).  Python iterates the
dict in insertion order, so the table is an association list. -/

/-- One ticker's summary metrics: the values of
`data.get("annual_return", data.get("return_pct", 0))` and
`data.get("volatility", data.get("volatility_pct", 1))` in the source. -/
structure StockMetric where
  ret : ℚ
  vol : ℚ
deriving DecidableEq

/-- The `summary_metrics` table, in dict insertion order. -/
abbrev Metrics := List (String × StockMetric)

/-- Embeds `ret / vol if vol > 0 else 0` — the Sharpe-like ratio used by both
`create_growth_portfolio` (risk_adjusted) and `create_diversified_portfolio`. -/
def sharpeLike (m : StockMetric) : ℚ :=
  if 0 < m.vol then m.ret / m.vol else 0

/-- Embeds `(v / total * 100) if total > 0 else 0` — the guarded proportional-weight
expression shared by the risk_adjusted and performance_weighted branches. -/
def propWeight (total v : ℚ) : ℚ :=
  if 0 < total then v / total * 100 else 0

/-- The `allocation` dict computed by `create_growth_portfolio`
(`utils.py:133-196`), after the final `round(v, 2)` pass.  `none` embeds the
`ZeroDivisionError` that `100.0 / num_stocks` raises on an empty table in the
`equal_weight` branch.  Any method other than `equal_weight` and
`risk_adjusted` takes the default `performance_weighted` branch, exactly as
the source's `else`. -/
def createGrowthAllocation (ms : Metrics) (method : String) :
    Option (List (String × ℚ)) :=
  if method = "equal_weight" then
    if ms.length = 0 then none
    else some (ms.map (fun p => (p.1, round2 (100 / (ms.length : ℚ)))))
  else if method = "risk_adjusted" then
    some (ms.map (fun p => (p.1, round2 (propWeight
      ((ms.map (fun q => sharpeLike q.2)).sum) (sharpeLike p.2)))))
  else
    some (ms.map (fun p => (p.1, round2 (propWeight
      ((ms.map (fun q => max q.2.ret (1/10))).sum) (max p.2.ret (1/10))))))

/-- The `raw_allocation` dict of `create_diversified_portfolio`
(`utils.py:216-226`): Sharpe-proportional weights before capping. -/
def rawDiversifiedWeights (ms : Metrics) : List (String × ℚ) :=
  ms.map (fun p => (p.1, propWeight
    ((ms.map (fun q => sharpeLike q.2)).sum) (sharpeLike p.2)))

/-- The `allocation` dict after the single capping pass
(`utils.py:228-230`): each raw weight capped at `max_allocation`. -/
def cappedWeights (ms : Metrics) (maxAlloc : ℚ) : List (String × ℚ) :=
  (rawDiversifiedWeights ms).map (fun p => (p.1, min p.2 maxAlloc))

/-- The final allocation of `create_diversified_portfolio`
(`utils.py:199-256`): renormalize the capped weights to 100 and round to two
decimals.  `v / total_alloc` has no zero guard in the source; when
`total_alloc == 0` and the table is non-empty the comprehension raises
`ZeroDivisionError`, embedded as `none` (with an empty table the
comprehension performs no division and returns the empty dict). -/
def createDiversifiedAllocation (ms : Metrics) (maxAlloc : ℚ) :
    Option (List (String × ℚ)) :=
  if ((cappedWeights ms maxAlloc).map (fun p => p.2)).sum = 0 ∧
      cappedWeights ms maxAlloc ≠ [] then none
  else some ((cappedWeights ms maxAlloc).map (fun p =>
    (p.1, round2 (p.2 / ((cappedWeights ms maxAlloc).map
      (fun q => q.2)).sum * 100))))

/-- Sanity: equal weight over four tickers is 25 each
(spec §8 example scenario). -/
example :
    createGrowthAllocation
      [("A", ⟨10, 10⟩), ("B", ⟨10, 10⟩), ("C", ⟨10, 10⟩), ("D", ⟨10, 10⟩)]
      "equal_weight" =
    some [("A", 25), ("B", 25), ("C", 25), ("D", 25)] := by
  norm_num [createGrowthAllocation, round2, roundHalfEven]

/-! ## Budget arithmetic (`AgentService.calculate_50_30_20_budget`,
`agent_service.py:386-402`) -/

/-- One budget bucket: `{"amount": ..., "percentage": ...}`. -/
structure BudgetPart where
  amount : ℚ
  percentage : ℚ
deriving DecidableEq

/-- The dict returned by `calculate_50_30_20_budget`. -/
structure Budget where
  monthly_income : ℚ
  needs : BudgetPart
  wants : BudgetPart
  savings : BudgetPart
  total : ℚ
deriving DecidableEq

/-- Embeds `AgentService.calculate_50_30_20_budget`: fixed 50/30/20 split of the
monthly income. -/
def calculate_50_30_20_budget (monthlyIncome : ℚ) : Budget :=
  { monthly_income := monthlyIncome
    needs := ⟨monthlyIncome * 0.5, 50⟩
    wants := ⟨monthlyIncome * 0.3, 30⟩
    savings := ⟨monthlyIncome * 0.2, 20⟩
    total := monthlyIncome }

/-- C2: for every positive monthly income the 50/30/20 budget returns
needs = 0.5·income (tagged 50), wants = 0.3·income (tagged 30),
savings = 0.2·income (tagged 20), the three amounts sum to the income,
`total` equals the income, and income 5000 yields 2500/1500/1000 with
total 5000. -/
theorem budget_50_30_20_correct (m : ℚ) (h : 0 < m) :
    (calculate_50_30_20_budget m).needs.amount = 0.5 * m ∧
    (calculate_50_30_20_budget m).wants.amount = 0.3 * m ∧
    (calculate_50_30_20_budget m).savings.amount = 0.2 * m ∧
    (calculate_50_30_20_budget m).needs.percentage = 50 ∧
    (calculate_50_30_20_budget m).wants.percentage = 30 ∧
    (calculate_50_30_20_budget m).savings.percentage = 20 ∧
    (calculate_50_30_20_budget m).needs.amount +
      (calculate_50_30_20_budget m).wants.amount +
      (calculate_50_30_20_budget m).savings.amount = m ∧
    (calculate_50_30_20_budget m).total = m ∧
    calculate_50_30_20_budget 5000 =
      ⟨5000, ⟨2500, 50⟩, ⟨1500, 30⟩, ⟨1000, 20⟩, 5000⟩ := by
  refine ⟨?_, ?_, ?_, rfl, rfl, rfl, ?_, rfl, ?_⟩ <;>
    simp only [calculate_50_30_20_budget] <;>
    norm_num <;> ring

/-- Witness for C2: the income-5000 scenario, extracted from
`budget_50_30_20_correct` with its hypothesis discharged. -/
theorem budget_50_30_20_correct_witness :
    calculate_50_30_20_budget 5000 =
      ⟨5000, ⟨2500, 50⟩, ⟨1500, 30⟩, ⟨1000, 20⟩, 5000⟩ :=
  (budget_50_30_20_correct 5000 (by norm_num)).2.2.2.2.2.2.2.2

/-- C4: on two tickers whose Sharpe-proportional raw weights are 80 and 20,
`create_diversified_portfolio` with `max_allocation = 30` caps them to 30
and 20 in a single pass and renormalizes the capped weights to 60 and 40. -/
theorem diversified_cap_then_renormalize_example :
    rawDiversifiedWeights [("A", ⟨40, 10⟩), ("B", ⟨10, 10⟩)] =
      [("A", 80), ("B", 20)] ∧
    cappedWeights [("A", ⟨40, 10⟩), ("B", ⟨10, 10⟩)] 30 =
      [("A", 30), ("B", 20)] ∧
    createDiversifiedAllocation [("A", ⟨40, 10⟩), ("B", ⟨10, 10⟩)] 30 =
      some [("A", 60), ("B", 40)] := by
  refine ⟨?_, ?_, ?_⟩ <;>
    norm_num [createDiversifiedAllocation, cappedWeights,
      rawDiversifiedWeights, sharpeLike, propWeight, round2, roundHalfEven]

/-! ## Summation lemmas for the allocation invariant -/

theorem sum_map_round2_sub_abs (l : List ℚ) :
    |(l.map round2).sum - l.sum| ≤ (l.length : ℚ) * (1/200) := by
  induction l with
  | nil => simp
  | cons a tl ih =>
    simp only [List.map_cons, List.sum_cons, List.length_cons]
    have h2 : round2 a + (tl.map round2).sum - (a + tl.sum)
        = (round2 a - a) + ((tl.map round2).sum - tl.sum) := by ring
    rw [h2]
    have h3 := abs_add (round2 a - a) ((tl.map round2).sum - tl.sum)
    have h4 := add_le_add (round2_sub_abs a) ih
    push_cast
    calc |(round2 a - a) + ((tl.map round2).sum - tl.sum)|
        ≤ |round2 a - a| + |(tl.map round2).sum - tl.sum| := h3
      _ ≤ 1/200 + (tl.length : ℚ) * (1/200) := h4
      _ = ((tl.length : ℚ) + 1) * (1/200) := by ring

theorem sum_map_div_mul (l : List ℚ) (T : ℚ) :
    (l.map (fun v => v / T * 100)).sum = l.sum / T * 100 := by
  induction l with
  | nil => simp
  | cons a tl ih =>
    simp only [List.map_cons, List.sum_cons, ih]
    ring

theorem sum_map_const_rat {α : Type} (l : List α) (c : ℚ) :
    (l.map (fun _ => c)).sum = (l.length : ℚ) * c := by
  induction l with
  | nil => simp
  | cons a tl ih =>
    simp only [List.map_cons, List.sum_cons, List.length_cons, ih]
    push_cast
    ring

/-- Core invariant: proportional weights `v / Σv * 100`, rounded to two
decimals, are non-negative and sum to 100 within `len/200 ≤ 0.1` when all
raw values are positive and there are at most 20 of them. -/
theorem weights_ok (l : List ℚ) (hne : l ≠ []) (hpos : ∀ v ∈ l, 0 < v)
    (hlen : l.length ≤ 20) :
    (∀ w ∈ l.map (fun v => round2 (v / l.sum * 100)), 0 ≤ w) ∧
    |(l.map (fun v => round2 (v / l.sum * 100))).sum - 100| ≤ 1/10 := by
  have hT : 0 < l.sum := List.sum_pos l hpos hne
  constructor
  · intro w hw
    obtain ⟨v, hv, rfl⟩ := List.mem_map.mp hw
    have hv' := hpos v hv
    exact round2_nonneg _ (by positivity)
  · have hcomp : l.map (fun v => round2 (v / l.sum * 100))
        = (l.map (fun v => v / l.sum * 100)).map round2 := by
      rw [List.map_map]; rfl
    rw [hcomp]
    have h1 := sum_map_round2_sub_abs (l.map (fun v => v / l.sum * 100))
    rw [sum_map_div_mul, List.length_map, div_self (ne_of_gt hT), one_mul] at h1
    have h2 : (l.length : ℚ) ≤ 20 := by exact_mod_cast hlen
    calc |((l.map (fun v => v / l.sum * 100)).map round2).sum - 100|
        ≤ (l.length : ℚ) * (1/200) := h1
      _ ≤ 20 * (1/200) := by nlinarith
      _ = 1/10 := by norm_num

theorem equal_weights_ok (n : ℕ) (h1 : 1 ≤ n) (h20 : n ≤ 20) :
    0 ≤ round2 (100 / (n:ℚ)) ∧
    |(n:ℚ) * round2 (100 / (n:ℚ)) - 100| ≤ 1/10 := by
  have hn : (0:ℚ) < n := by exact_mod_cast h1
  constructor
  · exact round2_nonneg _ (by positivity)
  · have h := round2_sub_abs (100 / (n:ℚ))
    have heq : (n:ℚ) * round2 (100/(n:ℚ)) - 100
        = (n:ℚ) * (round2 (100/(n:ℚ)) - 100/(n:ℚ)) := by
      field_simp
      ring
    rw [heq, abs_mul, abs_of_pos hn]
    have h2 : (n:ℚ) ≤ 20 := by exact_mod_cast h20
    have h3 : (n:ℚ) * |round2 (100/(n:ℚ)) - 100/(n:ℚ)| ≤ (n:ℚ) * (1/200) :=
      mul_le_mul_of_nonneg_left h (le_of_lt hn)
    calc (n:ℚ) * |round2 (100/(n:ℚ)) - 100/(n:ℚ)|
        ≤ (n:ℚ) * (1/200) := h3
      _ ≤ 20 * (1/200) := by nlinarith
      _ = 1/10 := by norm_num

/-- The allocation-result invariant of spec §3/§8: the call succeeds and
returns per-ticker weights that are non-negative and sum to 100 within 0.1. -/
def allocOk (o : Option (List (String × ℚ))) : Prop :=
  ∃ l, o = some l ∧ (∀ p ∈ l, 0 ≤ p.2) ∧
    |(l.map (fun p => p.2)).sum - 100| ≤ 1/10

theorem propWeight_pos_total (total : ℚ) (h : 0 < total) (v : ℚ) :
    propWeight total v = v / total * 100 := if_pos h

theorem sharpeLike_pos (m : StockMetric) (hr : 0 < m.ret) (hv : 0 < m.vol) :
    0 < sharpeLike m := by
  unfold sharpeLike
  rw [if_pos hv]
  positivity

theorem allocOk_some_prop {α : Type} (ms : List α) (k : α → String)
    (g : α → ℚ) (hne : ms ≠ []) (hlen : ms.length ≤ 20)
    (hpos : ∀ q ∈ ms, 0 < g q) :
    allocOk (some (ms.map
      (fun q => (k q, round2 (g q / (ms.map g).sum * 100))))) := by
  have hl_ne : ms.map g ≠ [] := by simp [List.map_eq_nil_iff, hne]
  have hl_pos : ∀ v ∈ ms.map g, 0 < v := by
    intro v hv
    obtain ⟨q, hq, rfl⟩ := List.mem_map.mp hv
    exact hpos q hq
  have hl_len : (ms.map g).length ≤ 20 := by rwa [List.length_map]
  have W := weights_ok (ms.map g) hl_ne hl_pos hl_len
  refine ⟨_, rfl, ?_, ?_⟩
  · intro p hp
    obtain ⟨q, hq, rfl⟩ := List.mem_map.mp hp
    exact W.1 _ (List.mem_map_of_mem _ (List.mem_map_of_mem g hq))
  · have hvals : (ms.map
        (fun q => (k q, round2 (g q / (ms.map g).sum * 100)))).map
          (fun p => p.2)
        = (ms.map g).map (fun v => round2 (v / (ms.map g).sum * 100)) := by
      rw [List.map_map, List.map_map]
      rfl
    rw [hvals]
    exact W.2

/-- C1 (amended): with 1–20 tickers, strictly positive returns and
volatilities, and a positive per-asset cap (the default is 30), every
allocation produced by `create_growth_portfolio` (all three methods) and by
`create_diversified_portfolio` has non-negative weights summing to 100
within 0.1.  The positivity and size hypotheses are forced by
`allocation_invariant_counterexample`. -/
theorem allocation_invariant (ms : Metrics) (maxAlloc : ℚ)
    (hne : ms ≠ []) (hlen : ms.length ≤ 20)
    (hmet : ∀ p ∈ ms, 0 < p.2.ret ∧ 0 < p.2.vol) (hmax : 0 < maxAlloc) :
    allocOk (createGrowthAllocation ms "equal_weight") ∧
    allocOk (createGrowthAllocation ms "risk_adjusted") ∧
    allocOk (createGrowthAllocation ms "performance_weighted") ∧
    allocOk (createDiversifiedAllocation ms maxAlloc) := by
  have hn0 : ms.length ≠ 0 := by
    intro h
    exact hne (List.length_eq_zero.mp h)
  refine ⟨?_, ?_, ?_, ?_⟩
  · -- equal_weight
    rw [createGrowthAllocation, if_pos rfl, if_neg hn0]
    have E := equal_weights_ok ms.length (Nat.one_le_iff_ne_zero.mpr hn0) hlen
    refine ⟨_, rfl, ?_, ?_⟩
    · intro p hp
      obtain ⟨q, _, rfl⟩ := List.mem_map.mp hp
      exact E.1
    · have hvals : (ms.map
          (fun p => (p.1, round2 (100 / (ms.length : ℚ))))).map
            (fun p => p.2)
          = ms.map (fun _ => round2 (100 / (ms.length : ℚ))) := by
        rw [List.map_map]
        rfl
      rw [hvals, sum_map_const_rat]
      exact E.2
  · -- risk_adjusted
    rw [createGrowthAllocation, if_neg (by decide), if_pos rfl]
    have hpos : ∀ q ∈ ms, 0 < sharpeLike q.2 := fun q hq =>
      sharpeLike_pos q.2 (hmet q hq).1 (hmet q hq).2
    have hT : 0 < (ms.map (fun q => sharpeLike q.2)).sum :=
      List.sum_pos _
        (fun v hv => by
          obtain ⟨q, hq, rfl⟩ := List.mem_map.mp hv
          exact hpos q hq)
        (by simp [List.map_eq_nil_iff, hne])
    have hrw : ms.map (fun p =>
          (p.1, round2 (propWeight ((ms.map (fun q => sharpeLike q.2)).sum)
            (sharpeLike p.2))))
        = ms.map (fun p => (p.1, round2 (sharpeLike p.2 /
            (ms.map (fun q => sharpeLike q.2)).sum * 100))) :=
      List.map_congr_left (fun q _ => by
        rw [propWeight_pos_total _ hT])
    rw [hrw]
    exact allocOk_some_prop ms (fun p => p.1) (fun q => sharpeLike q.2)
      hne hlen hpos
  · -- performance_weighted (the source's default / else branch)
    rw [createGrowthAllocation, if_neg (by decide), if_neg (by decide)]
    have hpos : ∀ q : String × StockMetric, q ∈ ms →
        0 < max q.2.ret (1/10) := fun q _ =>
      lt_of_lt_of_le (by norm_num) (le_max_right _ _)
    have hT : 0 < (ms.map (fun q => max q.2.ret (1/10))).sum :=
      List.sum_pos _
        (fun v hv => by
          obtain ⟨q, hq, rfl⟩ := List.mem_map.mp hv
          exact hpos q hq)
        (by simp [List.map_eq_nil_iff, hne])
    have hrw : ms.map (fun p =>
          (p.1, round2 (propWeight
            ((ms.map (fun q => max q.2.ret (1/10))).sum)
            (max p.2.ret (1/10)))))
        = ms.map (fun p => (p.1, round2 (max p.2.ret (1/10) /
            (ms.map (fun q => max q.2.ret (1/10))).sum * 100))) :=
      List.map_congr_left (fun q _ => by
        rw [propWeight_pos_total _ hT])
    rw [hrw]
    exact allocOk_some_prop ms (fun p => p.1)
      (fun q => max q.2.ret (1/10)) hne hlen hpos
  · -- diversified
    have hpos : ∀ q ∈ ms, 0 < sharpeLike q.2 := fun q hq =>
      sharpeLike_pos q.2 (hmet q hq).1 (hmet q hq).2
    have hT : 0 < (ms.map (fun q => sharpeLike q.2)).sum :=
      List.sum_pos _
        (fun v hv => by
          obtain ⟨q, hq, rfl⟩ := List.mem_map.mp hv
          exact hpos q hq)
        (by simp [List.map_eq_nil_iff, hne])
    have hcap : cappedWeights ms maxAlloc
        = ms.map (fun p =>
            (p.1, min (propWeight ((ms.map (fun q => sharpeLike q.2)).sum)
              (sharpeLike p.2)) maxAlloc)) := by
      rw [cappedWeights, rawDiversifiedWeights, List.map_map]
      rfl
    have hCpos : ∀ p ∈ cappedWeights ms maxAlloc, 0 < p.2 := by
      intro p hp
      rw [hcap] at hp
      obtain ⟨q, hq, rfl⟩ := List.mem_map.mp hp
      show 0 < min (propWeight _ (sharpeLike q.2)) maxAlloc
      rw [propWeight_pos_total _ hT]
      have := hpos q hq
      apply lt_min _ hmax
      positivity
    have hCne : cappedWeights ms maxAlloc ≠ [] := by
      rw [hcap]
      simp [List.map_eq_nil_iff, hne]
    have hClen : (cappedWeights ms maxAlloc).length ≤ 20 := by
      rw [hcap, List.length_map]
      exact hlen
    have hTA : 0 < ((cappedWeights ms maxAlloc).map (fun p => p.2)).sum :=
      List.sum_pos _
        (fun v hv => by
          obtain ⟨q, hq, rfl⟩ := List.mem_map.mp hv
          exact hCpos q hq)
        (by simp [List.map_eq_nil_iff, hCne])
    rw [createDiversifiedAllocation, if_neg (by
      intro hand
      exact absurd hand.1 (ne_of_gt hTA))]
    exact allocOk_some_prop (cappedWeights ms maxAlloc)
      (fun p => p.1) (fun p => p.2) hCne hClen hCpos

/-- Witness for C1 (amended): a concrete two-ticker table with positive
metrics satisfies every hypothesis, and all four allocations are valid. -/
theorem allocation_invariant_witness :
    allocOk (createGrowthAllocation
      [("A", ⟨10, 10⟩), ("B", ⟨20, 10⟩)] "equal_weight") ∧
    allocOk (createGrowthAllocation
      [("A", ⟨10, 10⟩), ("B", ⟨20, 10⟩)] "risk_adjusted") ∧
    allocOk (createGrowthAllocation
      [("A", ⟨10, 10⟩), ("B", ⟨20, 10⟩)] "performance_weighted") ∧
    allocOk (createDiversifiedAllocation
      [("A", ⟨10, 10⟩), ("B", ⟨20, 10⟩)] 30) :=
  allocation_invariant [("A", ⟨10, 10⟩), ("B", ⟨20, 10⟩)] 30
    (by simp) (by simp)
    (by
      intro p hp
      simp only [List.mem_cons, List.not_mem_nil, or_false] at hp
      rcases hp with rfl | rfl <;> exact ⟨by norm_num, by norm_num⟩)
    (by norm_num)

/-- A 31-ticker table with identical positive metrics; used to show that
two-decimal rounding alone can push an allocation's total outside 100 ± 0.1. -/
def ms31 : Metrics :=
  [("T01", ⟨10, 10⟩), ("T02", ⟨10, 10⟩), ("T03", ⟨10, 10⟩),
   ("T04", ⟨10, 10⟩), ("T05", ⟨10, 10⟩), ("T06", ⟨10, 10⟩),
   ("T07", ⟨10, 10⟩), ("T08", ⟨10, 10⟩), ("T09", ⟨10, 10⟩),
   ("T10", ⟨10, 10⟩), ("T11", ⟨10, 10⟩), ("T12", ⟨10, 10⟩),
   ("T13", ⟨10, 10⟩), ("T14", ⟨10, 10⟩), ("T15", ⟨10, 10⟩),
   ("T16", ⟨10, 10⟩), ("T17", ⟨10, 10⟩), ("T18", ⟨10, 10⟩),
   ("T19", ⟨10, 10⟩), ("T20", ⟨10, 10⟩), ("T21", ⟨10, 10⟩),
   ("T22", ⟨10, 10⟩), ("T23", ⟨10, 10⟩), ("T24", ⟨10, 10⟩),
   ("T25", ⟨10, 10⟩), ("T26", ⟨10, 10⟩), ("T27", ⟨10, 10⟩),
   ("T28", ⟨10, 10⟩), ("T29", ⟨10, 10⟩), ("T30", ⟨10, 10⟩),
   ("T31", ⟨10, 10⟩)]

set_option maxRecDepth 8192 in
/-- Counterexample to C1 as stated.  (1) With mixed-sign returns the
risk_adjusted method returns a negative weight (−100 for "B"), violating
"every per-ticker weight ≥ 0".  (2) With 31 equally-performing tickers the
equal_weight method returns weights summing to 100.13, outside 100 ± 0.1,
violating the sum tolerance even though all metrics are positive. -/
theorem allocation_invariant_counterexample :
    (createGrowthAllocation [("A", ⟨10, 10⟩), ("B", ⟨-5, 10⟩)]
        "risk_adjusted" = some [("A", 200), ("B", -100)] ∧
      ((-100 : ℚ) < 0)) ∧
    ((createGrowthAllocation ms31 "equal_weight").map
        (fun l => (l.map (fun p => p.2)).sum) = some (10013/100) ∧
      ¬(|(10013/100 : ℚ) - 100| ≤ 1/10)) := by
  have h200 : round2 200 = 200 := by
    rw [round2_down 200 20000 (by norm_num) (by norm_num)]
    norm_num
  have hm100 : round2 (-100) = -100 := by
    rw [round2_down (-100) (-10000) (by norm_num) (by norm_num)]
    norm_num
  have h323 : round2 (100/31) = 323/100 := by
    rw [round2_up (100/31) 322 (by norm_num) (by norm_num) (by norm_num)]
    norm_num
  refine ⟨⟨?_, by norm_num⟩, ⟨?_, by rw [abs_le]; norm_num⟩⟩
  · rw [createGrowthAllocation, if_neg (by decide), if_pos rfl]
    norm_num [sharpeLike, propWeight]
    exact ⟨h200, hm100⟩
  · rw [ms31, createGrowthAllocation, if_pos rfl, if_neg (by norm_num)]
    norm_num [h323]

theorem round2_zero : round2 0 = 0 := by
  rw [round2_down 0 0 (by norm_num) (by norm_num)]
  norm_num

/-- C3 (amended): when every ticker's Sharpe-like ratio is zero, the
risk_adjusted method of `create_growth_portfolio` assigns every ticker the
weight 0 — there is no fallback to equal weighting in the code; the guarded
comprehension `(sharpe / total * 100) if total_sharpe > 0 else 0` takes its
`else 0` arm for every ticker. -/
theorem risk_adjusted_all_zero_gives_zero (ms : Metrics)
    (hz : ∀ p ∈ ms, sharpeLike p.2 = 0) :
    createGrowthAllocation ms "risk_adjusted"
      = some (ms.map (fun p => (p.1, 0))) := by
  rw [createGrowthAllocation, if_neg (by decide), if_pos rfl]
  have hT : (ms.map (fun q => sharpeLike q.2)).sum = 0 :=
    List.sum_eq_zero (fun v hv => by
      obtain ⟨q, hq, rfl⟩ := List.mem_map.mp hv
      exact hz q hq)
  congr 1
  apply List.map_congr_left
  intro q _
  rw [hT, propWeight, if_neg (lt_irrefl 0), round2_zero]

/-- Witness for C3 (amended): two tickers whose ratios are zero through the
two different guards (zero return, and non-positive volatility) both
receive weight 0. -/
theorem risk_adjusted_all_zero_gives_zero_witness :
    createGrowthAllocation [("A", ⟨0, 10⟩), ("B", ⟨5, 0⟩)] "risk_adjusted"
      = some [("A", 0), ("B", 0)] := by
  have h := risk_adjusted_all_zero_gives_zero
    [("A", ⟨0, 10⟩), ("B", ⟨5, 0⟩)]
    (by
      intro p hp
      simp only [List.mem_cons, List.not_mem_nil, or_false] at hp
      rcases hp with rfl | rfl <;> norm_num [sharpeLike])
  simpa using h

/-- Counterexample to C3 as stated: a single ticker with zero return has
all-zero Sharpe ratios, so the claim predicts the equal-weight fallback
`100 / 1 = 100`; the code returns weight 0 instead. -/
theorem risk_adjusted_fallback_counterexample :
    createGrowthAllocation [("A", ⟨0, 10⟩)] "risk_adjusted"
      = some [("A", 0)] ∧ (0:ℚ) ≠ 100 := by
  constructor
  · rw [createGrowthAllocation, if_neg (by decide), if_pos rfl]
    norm_num [sharpeLike, propWeight, round2_zero]
  · norm_num

/-- C10: `create_diversified_portfolio` renormalizes by
`sum(allocation.values())` with no zero guard, so whenever the table is
non-empty, every Sharpe-like ratio is zero and the cap is non-negative
(the default is 30), the capped total is 0 and the comprehension raises
`ZeroDivisionError` (embedded as `none`) instead of returning an
allocation. -/
theorem diversified_zero_sharpe_raises (ms : Metrics) (maxAlloc : ℚ)
    (hne : ms ≠ []) (hz : ∀ p ∈ ms, sharpeLike p.2 = 0)
    (hmax : 0 ≤ maxAlloc) :
    createDiversifiedAllocation ms maxAlloc = none := by
  have hT : (ms.map (fun q => sharpeLike q.2)).sum = 0 :=
    List.sum_eq_zero (fun v hv => by
      obtain ⟨q, hq, rfl⟩ := List.mem_map.mp hv
      exact hz q hq)
  have hcap0 : ∀ p ∈ cappedWeights ms maxAlloc, p.2 = 0 := by
    intro p hp
    rw [cappedWeights, rawDiversifiedWeights, List.map_map] at hp
    obtain ⟨q, hq, rfl⟩ := List.mem_map.mp hp
    show min (propWeight _ (sharpeLike q.2)) maxAlloc = 0
    rw [hT, propWeight, if_neg (lt_irrefl 0)]
    exact min_eq_left hmax
  have hsum0 : ((cappedWeights ms maxAlloc).map (fun p => p.2)).sum = 0 :=
    List.sum_eq_zero (fun v hv => by
      obtain ⟨q, hq, rfl⟩ := List.mem_map.mp hv
      exact hcap0 q hq)
  have hcne : cappedWeights ms maxAlloc ≠ [] := by
    rw [cappedWeights, rawDiversifiedWeights, List.map_map]
    simp [List.map_eq_nil_iff, hne]
  rw [createDiversifiedAllocation, if_pos ⟨hsum0, hcne⟩]

/-- Witness for C10: a single ticker with zero volatility (ratio 0) makes
`create_diversified_portfolio` with the default cap 30 raise. -/
theorem diversified_zero_sharpe_raises_witness :
    createDiversifiedAllocation [("A", ⟨10, 0⟩)] 30 = none :=
  diversified_zero_sharpe_raises [("A", ⟨10, 0⟩)] 30 (by simp)
    (by
      intro p hp
      simp only [List.mem_cons, List.not_mem_nil, or_false] at hp
      subst hp
      norm_num [sharpeLike])
    (by norm_num)

/-! ## Agent caches (`agent_manager.py`, `agent_service.py`)

The external strands `Agent` object is opaque; the cache logic only needs
identity (which construction produced the object), the creation path taken,
the construction parameters, and the conversation-window length (empty at
construction).  `id` is a freshness counter standing for Python object
identity: two agents are the same object iff they have the same `id`. -/

/-- Model of a cached strands `Agent` instance. -/
structure Agent where
  id : ℕ
  kind : String
  userId : Option String
  initState : List (String × String)
  messageCount : ℕ
deriving DecidableEq

/-- State of `AgentManager.agents` plus the freshness counter for object identity. -/
structure ManagerState where
  agents : List (String × Agent)
  nextId : ℕ
deriving DecidableEq

/-- State of `AgentService.agents` plus the freshness counter for object identity. -/
structure ServiceState where
  agents : List (String × Agent)
  nextId : ℕ
deriving DecidableEq

/-- Python dict lookup `self.agents[key]` / `key in self.agents` over the
insertion-ordered association list. -/
def lookupAgent (l : List (String × Agent)) (k : String) : Option Agent :=
  match l.find? (fun p => p.1 == k) with
  | some p => some p.2
  | none => none

theorem lookupAgent_append_self (l : List (String × Agent)) (k : String)
    (a : Agent) (h : lookupAgent l k = none) :
    lookupAgent (l ++ [(k, a)]) k = some a := by
  unfold lookupAgent at *
  rw [List.find?_append]
  cases hf : l.find? (fun p => p.1 == k) with
  | none => simp [List.find?]
  | some p => rw [hf] at h; simp at h

/-- The `if agent_type == "basic": ... else: agent = self._create_basic_agent()`
dispatch of `AgentManager.get_or_create_agent` (`agent_manager.py:57-69`):
the `kind` field records which `_create_*_agent` ran; the memory path
captures `user_id`; every fresh agent starts with an empty window. -/
def AgentManager.createAgentByType (agentType userId : String) (n : ℕ) :
    Agent :=
  if agentType = "basic" then ⟨n, "basic", none, [], 0⟩
  else if agentType = "financial" then ⟨n, "financial", none, [], 0⟩
  else if agentType = "budget" then ⟨n, "budget", none, [], 0⟩
  else if agentType = "memory" then ⟨n, "memory", some userId, [], 0⟩
  else ⟨n, "basic", none, [], 0⟩

/-- Embeds `AgentManager.get_or_create_agent` (`agent_manager.py:48-73`): key is
`f"{user_id}_{agent_type}_{session_id or 'default'}"`; a cached key returns
the cached instance unchanged, otherwise the dispatched creator runs and the
result is cached. -/
def AgentManager.get_or_create_agent (st : ManagerState)
    (userId agentType : String) (sessionId : Option String) :
    Agent × ManagerState :=
  match lookupAgent st.agents
      (userId ++ "_" ++ agentType ++ "_" ++ sessionId.getD "default") with
  | some a => (a, st)
  | none =>
      let a := AgentManager.createAgentByType agentType userId st.nextId
      (a, ⟨st.agents ++
        [(userId ++ "_" ++ agentType ++ "_" ++ sessionId.getD "default", a)],
        st.nextId + 1⟩)

/-- The `if/elif/.../else raise ValueError` dispatch of
`AgentService.get_or_create_agent` (`agent_service.py:101-112`); `none`
embeds the raised `ValueError` for an unknown type. -/
def AgentService.createAgentByType (agentType userId : String)
    (initialState : List (String × String)) (n : ℕ) : Option Agent :=
  if agentType = "basic" then some ⟨n, "basic", none, [], 0⟩
  else if agentType = "financial" then some ⟨n, "financial", none, [], 0⟩
  else if agentType = "budget" then some ⟨n, "budget", none, [], 0⟩
  else if agentType = "memory" then some ⟨n, "memory", some userId, initialState, 0⟩
  else if agentType = "orchestrator" then some ⟨n, "orchestrator", none, [], 0⟩
  else none

/-- Embeds `AgentService.get_or_create_agent` (`agent_service.py:76-115`): key is
`f"{user_id}_{agent_type}"` (no session component); a cached key returns the
cached instance; an unknown type raises (`.error`) before anything is
cached, leaving the state unchanged. -/
def AgentService.get_or_create_agent (st : ServiceState)
    (userId agentType : String) (initialState : List (String × String)) :
    Except String Agent × ServiceState :=
  match lookupAgent st.agents (userId ++ "_" ++ agentType) with
  | some a => (Except.ok a, st)
  | none =>
      match AgentService.createAgentByType agentType userId initialState
          st.nextId with
      | some a => (Except.ok a,
          ⟨st.agents ++ [(userId ++ "_" ++ agentType, a)], st.nextId + 1⟩)
      | none => (Except.error ("Unknown agent type: " ++ agentType), st)

/-- Python's `key.startswith(prefix)`. -/
def strStartsWith (s p : String) : Bool := decide (p.data <+: s.data)

/-- Embeds `AgentService.reset_agent` (`agent_service.py:369-380`): delete every
cache entry whose key starts with `f"{user_id}_"`. -/
def AgentService.reset_agent (st : ServiceState) (userId : String) :
    ServiceState :=
  ⟨st.agents.filter (fun p => !(strStartsWith p.1 (userId ++ "_"))),
   st.nextId⟩

theorem strStartsWith_append (u t : String) :
    strStartsWith (u ++ t) u = true := by
  unfold strStartsWith
  rw [decide_eq_true_iff, String.data_append]
  exact List.prefix_append _ _

/-- C5: resolving the same (user, type, session) twice returns the identical
cached instance.  For `AgentManager` the second call is a no-op on the state
(no construction: `nextId` unchanged); for `AgentService`, if the first call
resolved `(a1, st1)` then a second call — even with different
`initial_state` parameters — returns the same `a1` and leaves `st1`
unchanged, so later parameters never mutate a cached agent. -/
theorem get_or_create_agent_idempotent
    (stM : ManagerState) (stS : ServiceState) (userId agentType : String)
    (sessionId : Option String) (init1 init2 : List (String × String))
    (a1 : Agent) (st1 : ServiceState)
    (hS : AgentService.get_or_create_agent stS userId agentType init1
      = (Except.ok a1, st1)) :
    AgentManager.get_or_create_agent
        (AgentManager.get_or_create_agent stM userId agentType sessionId).2
        userId agentType sessionId
      = AgentManager.get_or_create_agent stM userId agentType sessionId ∧
    AgentService.get_or_create_agent st1 userId agentType init2
      = (Except.ok a1, st1) := by
  constructor
  · cases h : lookupAgent stM.agents
        (userId ++ "_" ++ agentType ++ "_" ++ sessionId.getD "default") with
    | some a =>
        simp only [AgentManager.get_or_create_agent, h]
    | none =>
        simp only [AgentManager.get_or_create_agent, h]
        rw [lookupAgent_append_self _ _ _ h]
  · unfold AgentService.get_or_create_agent at hS ⊢
    cases h : lookupAgent stS.agents (userId ++ "_" ++ agentType) with
    | some a =>
        rw [h] at hS
        simp only at hS
        obtain ⟨ha, hst⟩ := Prod.mk.injEq .. ▸ hS
        obtain rfl := Except.ok.injEq .. ▸ ha
        subst hst
        rw [h]
    | none =>
        rw [h] at hS
        simp only at hS
        cases hc : AgentService.createAgentByType agentType userId init1
            stS.nextId with
        | some a =>
            rw [hc] at hS
            simp only [Prod.mk.injEq, Except.ok.injEq] at hS
            obtain ⟨rfl, rfl⟩ := hS
            rw [lookupAgent_append_self _ _ _ h]
        | none =>
            rw [hc] at hS
            simp only [Prod.mk.injEq] at hS
            exact absurd hS.1 (by simp)

/-- Witness for C5: fresh manager and service states; resolving
("alice", "memory") twice returns the same instance, even when the second
service call passes a different `initial_state`. -/
theorem get_or_create_agent_idempotent_witness :
    AgentManager.get_or_create_agent
        (AgentManager.get_or_create_agent ⟨[], 0⟩ "alice" "memory" none).2
        "alice" "memory" none
      = AgentManager.get_or_create_agent ⟨[], 0⟩ "alice" "memory" none ∧
    AgentService.get_or_create_agent
        ⟨[("alice" ++ "_" ++ "memory",
           ⟨0, "memory", some "alice", [], 0⟩)], 1⟩
        "alice" "memory" [("style", "terse")]
      = (Except.ok ⟨0, "memory", some "alice", [], 0⟩,
         ⟨[("alice" ++ "_" ++ "memory",
            ⟨0, "memory", some "alice", [], 0⟩)], 1⟩) :=
  get_or_create_agent_idempotent ⟨[], 0⟩ ⟨[], 0⟩ "alice" "memory" none
    [] [("style", "terse")] ⟨0, "memory", some "alice", [], 0⟩
    ⟨[("alice" ++ "_" ++ "memory", ⟨0, "memory", some "alice", [], 0⟩)], 1⟩
    rfl

/-- The closed enumeration of agent kinds accepted by
`AgentService.get_or_create_agent`. -/
def knownServiceKinds : List String :=
  ["basic", "financial", "budget", "memory", "orchestrator"]

theorem createAgentByType_known (agentType userId : String)
    (initialState : List (String × String)) (n : ℕ)
    (ht : agentType ∈ knownServiceKinds) :
    ∃ a, AgentService.createAgentByType agentType userId initialState n
        = some a ∧ a.messageCount = 0 ∧ a.id = n := by
  fin_cases ht <;> exact ⟨_, rfl, rfl, rfl⟩

/-- C6 (amended): `reset_agent(user_id)` removes exactly the cache entries
whose key string starts with `user_id + "_"` (which includes every entry of
that user, but — as `reset_agent_counterexample` shows — can also include
entries of a different user whose id extends `user_id + "_"`); the call is
total (no error when nothing matches), and a subsequent resolve of any
known kind for that user constructs a fresh instance (`id = st.nextId`,
untouched by the reset) with an empty window (message count 0). -/
theorem reset_agent_spec (st : ServiceState) (userId agentType : String)
    (initialState : List (String × String))
    (ht : agentType ∈ knownServiceKinds) :
    (∀ k a, (k, a) ∈ (AgentService.reset_agent st userId).agents ↔
      ((k, a) ∈ st.agents ∧ strStartsWith k (userId ++ "_") = false)) ∧
    (∃ a st', AgentService.get_or_create_agent
        (AgentService.reset_agent st userId) userId agentType initialState
        = (Except.ok a, st') ∧ a.messageCount = 0 ∧ a.id = st.nextId) := by
  constructor
  · intro k a
    unfold AgentService.reset_agent
    simp only [List.mem_filter, Bool.not_eq_true']
  · have hnone : lookupAgent (AgentService.reset_agent st userId).agents
        (userId ++ "_" ++ agentType) = none := by
      unfold lookupAgent
      rw [List.find?_eq_none.mpr]
      intro p hp hbeq
      have hkeep := (List.mem_filter.mp hp).2
      rw [Bool.not_eq_true'] at hkeep
      rw [eq_of_beq hbeq] at hkeep
      rw [strStartsWith_append (userId ++ "_") agentType] at hkeep
      exact Bool.noConfusion hkeep
    obtain ⟨a, ha, hmc, hid⟩ := createAgentByType_known agentType userId
      initialState (AgentService.reset_agent st userId).nextId ht
    refine ⟨a, ⟨(AgentService.reset_agent st userId).agents ++
        [(userId ++ "_" ++ agentType, a)],
        (AgentService.reset_agent st userId).nextId + 1⟩, ?_, hmc, ?_⟩
    · unfold AgentService.get_or_create_agent
      rw [hnone, ha]
    · rw [hid]
      rfl

/-- Witness for C6 (amended): a state holding an agent of user "x" and a
stale counter; resetting "alice" keeps x's entry and a fresh resolve for
"alice"/"memory" succeeds with a zero-message instance carrying id 5. -/
theorem reset_agent_spec_witness :
    (∀ k a, (k, a) ∈ (AgentService.reset_agent
        ⟨[("x_basic", ⟨0, "basic", none, [], 0⟩)], 5⟩ "alice").agents ↔
      ((k, a) ∈ [("x_basic", (⟨0, "basic", none, [], 0⟩ : Agent))] ∧
        strStartsWith k ("alice" ++ "_") = false)) ∧
    (∃ a st', AgentService.get_or_create_agent
        (AgentService.reset_agent
          ⟨[("x_basic", ⟨0, "basic", none, [], 0⟩)], 5⟩ "alice")
        "alice" "memory" []
        = (Except.ok a, st') ∧ a.messageCount = 0 ∧ a.id = 5) :=
  reset_agent_spec ⟨[("x_basic", ⟨0, "basic", none, [], 0⟩)], 5⟩
    "alice" "memory" [] (by decide)

/-- The service cache after users "bob" and "bob_2" each resolved a memory
agent (keys "bob_memory" and "bob_2_memory"). -/
def twoBobsState : ServiceState :=
  (AgentService.get_or_create_agent
    (AgentService.get_or_create_agent ⟨[], 0⟩ "bob" "memory" []).2
    "bob_2" "memory" []).2

/-- Counterexample to C6 as stated: user "bob_2"'s cached handle (key
`"bob_2" + "_" + "memory"`, user-id component "bob_2" ≠ "bob") exists
before `reset_agent("bob")` and is deleted by it, because the code matches
on the string prefix `"bob_"` rather than on the key's user-id component —
so reset does not leave every other user's handles unchanged. -/
theorem reset_agent_counterexample :
    lookupAgent twoBobsState.agents ("bob_2" ++ "_" ++ "memory")
      = some ⟨1, "memory", some "bob_2", [], 0⟩ ∧
    lookupAgent (AgentService.reset_agent twoBobsState "bob").agents
      ("bob_2" ++ "_" ++ "memory") = none := by
  constructor <;> rfl

/-- C9: for an agent type outside the known enumeration and not yet cached,
`AgentManager.get_or_create_agent` silently runs the basic creation path and
caches that agent (no error), while `AgentService.get_or_create_agent`
raises `ValueError` (`.error`) and leaves its cache untouched. -/
theorem unknown_agent_type_policy (stM : ManagerState) (stS : ServiceState)
    (userId agentType : String) (sessionId : Option String)
    (initialState : List (String × String))
    (ht : agentType ∉ knownServiceKinds)
    (hM : lookupAgent stM.agents
      (userId ++ "_" ++ agentType ++ "_" ++ sessionId.getD "default") = none)
    (hS : lookupAgent stS.agents (userId ++ "_" ++ agentType) = none) :
    AgentManager.get_or_create_agent stM userId agentType sessionId
      = (⟨stM.nextId, "basic", none, [], 0⟩,
         ⟨stM.agents ++
           [(userId ++ "_" ++ agentType ++ "_" ++ sessionId.getD "default",
             ⟨stM.nextId, "basic", none, [], 0⟩)], stM.nextId + 1⟩) ∧
    AgentService.get_or_create_agent stS userId agentType initialState
      = (Except.error ("Unknown agent type: " ++ agentType), stS) := by
  simp only [knownServiceKinds, List.mem_cons, List.not_mem_nil, or_false,
    not_or] at ht
  obtain ⟨h1, h2, h3, h4, h5⟩ := ht
  constructor
  · unfold AgentManager.get_or_create_agent
    rw [hM]
    unfold AgentManager.createAgentByType
    rw [if_neg h1, if_neg h2, if_neg h3, if_neg h4]
  · unfold AgentService.get_or_create_agent
    rw [hS]
    unfold AgentService.createAgentByType
    rw [if_neg h1, if_neg h2, if_neg h3, if_neg h4, if_neg h5]

/-- Witness for C9: the kind "bogus" on fresh caches — the manager caches a
basic-path agent, the service rejects it and its state is unchanged. -/
theorem unknown_agent_type_policy_witness :
    AgentManager.get_or_create_agent ⟨[], 0⟩ "carol" "bogus" none
      = (⟨0, "basic", none, [], 0⟩,
         ⟨[("carol" ++ "_" ++ "bogus" ++ "_" ++
             (none : Option String).getD "default",
           ⟨0, "basic", none, [], 0⟩)], 1⟩) ∧
    AgentService.get_or_create_agent ⟨[], 7⟩ "carol" "bogus" []
      = (Except.error ("Unknown agent type: " ++ "bogus"), ⟨[], 7⟩) :=
  unknown_agent_type_policy ⟨[], 0⟩ ⟨[], 7⟩ "carol" "bogus" none []
    (by decide) rfl rfl

/-! ## Memory adapter (`memory_service.py`, `agent_service.py:284-318`)

The mem0 backend is an opaque external collaborator: whether it is
configured (`self.memory` not `None`), whether the call raises, and the
item list it returns are inputs of the embedded functions. -/

/-- One scored memory item as returned by the backend; `score` is `none`
when the backend omitted the key (the source reads `mem.get("score", 0)`). -/
structure MemoryItem where
  id : String
  content : String
  score : Option ℚ
deriving DecidableEq

/-- Embeds `mem.get("score", 0)`. -/
def itemScore (m : MemoryItem) : ℚ := m.score.getD 0

/-- The `{"success": ..., "results": ...}` dict of
`MemoryService.retrieve_memories`. -/
structure RetrieveResult where
  success : Bool
  results : List MemoryItem
deriving DecidableEq

/-- Embeds `MemoryService.retrieve_memories` (`memory_service.py:54-77`):
`available` is `self.memory` being configured, `throws` whether the backend
search raised, `backendResults` the list under `results.get("results", [])`;
`maxResults` is forwarded to the backend as `limit` and not used
client-side.  Client-side filtering keeps only items with
`mem.get("score", 0) >= min_score`, and only when `min_score > 0`. -/
def MemoryService.retrieve_memories (available throws : Bool)
    (backendResults : List MemoryItem) (minScore : ℚ) (maxResults : ℕ) :
    RetrieveResult :=
  if !available then ⟨false, []⟩
  else if throws then ⟨false, []⟩
  else ⟨true,
    if 0 < minScore then
      backendResults.filter (fun m => minScore ≤ itemScore m)
    else backendResults⟩

/-- Embeds `AgentService.retrieve_memories` (`agent_service.py:300-318`): forwards
`max_results` to the backend, returns the backend list unchanged (or `[]` if
the call raised); `min_score` is accepted but never used. -/
def AgentService.retrieve_memories (throws : Bool)
    (backendResults : List MemoryItem) (minScore : ℚ) (maxResults : ℕ) :
    List MemoryItem :=
  if throws then [] else backendResults

/-- C7 (amended): `MemoryService.retrieve_memories` never returns an item
scoring below `min_score` and returns at most `max_results` items, assuming
backend scores are non-negative and the backend honours the `limit` it was
given.  (The `AgentService` variant violates the score clause —
`retrieve_memories_counterexample`.) -/
theorem retrieve_memories_filter_spec (available throws : Bool)
    (backendResults : List MemoryItem) (minScore : ℚ) (maxResults : ℕ)
    (hlen : backendResults.length ≤ maxResults)
    (hscore : ∀ m ∈ backendResults, 0 ≤ itemScore m) :
    (∀ m ∈ (MemoryService.retrieve_memories available throws backendResults
        minScore maxResults).results, minScore ≤ itemScore m) ∧
    (MemoryService.retrieve_memories available throws backendResults
        minScore maxResults).results.length ≤ maxResults := by
  unfold MemoryService.retrieve_memories
  cases available with
  | false => simp
  | true =>
    cases throws with
    | true => simp
    | false =>
      simp only [Bool.not_true, Bool.false_eq_true, if_false, if_true]
      by_cases hms : 0 < minScore
      · rw [if_pos hms]
        constructor
        · intro m hm
          have := (List.mem_filter.mp hm).2
          exact of_decide_eq_true this
        · exact le_trans (List.length_filter_le _ _) hlen
      · rw [if_neg hms]
        constructor
        · intro m hm
          exact le_trans (not_lt.mp hms) (hscore m hm)
        · exact hlen

/-- Witness for C7 (amended): a backend reply with scores 0.7 and 0.2 under
min_score 0.5 and max_results 5. -/
theorem retrieve_memories_filter_spec_witness :
    (∀ m ∈ (MemoryService.retrieve_memories true false
        [⟨"m1", "likes tea", some (7/10)⟩, ⟨"m2", "old note", some (2/10)⟩]
        (1/2) 5).results, (1/2 : ℚ) ≤ itemScore m) ∧
    (MemoryService.retrieve_memories true false
        [⟨"m1", "likes tea", some (7/10)⟩, ⟨"m2", "old note", some (2/10)⟩]
        (1/2) 5).results.length ≤ 5 :=
  retrieve_memories_filter_spec true false
    [⟨"m1", "likes tea", some (7/10)⟩, ⟨"m2", "old note", some (2/10)⟩]
    (1/2) 5 (by norm_num)
    (by
      intro m hm
      simp only [List.mem_cons, List.not_mem_nil, or_false] at hm
      rcases hm with rfl | rfl <;> norm_num [itemScore])

/-- Counterexample to C7 as stated: `AgentService.retrieve_memories` applies
no score filter, so a backend item scoring 0.3 is returned unchanged even
though `min_score = 0.5`. -/
theorem retrieve_memories_counterexample :
    AgentService.retrieve_memories false [⟨"m1", "note", some (3/10)⟩]
        (1/2) 5
      = [⟨"m1", "note", some (3/10)⟩] ∧
    itemScore ⟨"m1", "note", some (3/10)⟩ < 1/2 := by
  constructor
  · rfl
  · norm_num [itemScore]

/-- The `{"success": ..., "message": ..., "result": ...}` dict of
`MemoryService.store_memory`. -/
structure StoreResult where
  success : Bool
  message : String
  result : Option String
deriving DecidableEq

/-- Embeds `MemoryService.store_memory` (`memory_service.py:31-52`): `available`
is `self.memory` being configured; `call` is the outcome of the backend
store (`.error` = the backend raised, with the exception text).  The user
id and content only flow into the opaque backend call, so they are absorbed
into `call`.  Both failure modes return a normal failure dict — the
function is total, no exception escapes. -/
def MemoryService.store_memory (available : Bool)
    (call : Except String String) : StoreResult :=
  if !available then ⟨false, "Memory service not available", none⟩
  else
    match call with
    | Except.ok r => ⟨true, "Memory stored successfully", some r⟩
    | Except.error e => ⟨false, "Memory storage failed: " ++ e, none⟩

/-- C8: when the backend is not configured/initialized, or when the backend
call itself raises, `store_memory` returns a normal result with
`success = False` and no stored-memory payload, instead of propagating an
exception (the embedded function is total). -/
theorem store_memory_degrades_gracefully (call : Except String String)
    (e : String) :
    ((MemoryService.store_memory false call).success = false ∧
      (MemoryService.store_memory false call).result = none) ∧
    ((MemoryService.store_memory true (Except.error e)).success = false ∧
      (MemoryService.store_memory true (Except.error e)).result = none) :=
  ⟨⟨rfl, rfl⟩, ⟨rfl, rfl⟩⟩

end StrandsShortMemories
